import Mathlib

/-!
Shallow embedding of the core of `ansible-inventory-cli` (module
`scripts/managers/inventory_manager.py`), together with proofs of the
behavioural properties stated in the repository's specification.

Modelling conventions:

* Python strings are Lean `String`s.  The Python primitives `str.strip()`,
  `str.startswith(...)`, `str.lower()` and single-character `str.replace`
  are modelled character-wise through the underlying `List Char`
  (`pyStrip`, `pyStartsWith`, `pyLower`, ...), which keeps every
  definition executable and keeps proofs independent of the internals of
  `String.trim`.
* A text file's content is a `List String` of its lines (the result of
  Python `readlines()`, with the trailing newlines stripped; joining the
  lines back with newlines is injective, so list equality is byte
  equality of file contents).
* Filesystem writes are modelled by returning `some newContent` when the
  code opens the file for writing, and `none` when the write is skipped.
-/

namespace AnsibleInventory

/-- Characters removed by Python `str.strip()` (whitespace). -/
def isPySpace (c : Char) : Bool :=
  c = ' ' || c = '\t' || c = '\n' || c = '\r'

/-- Model of Python `str.strip()`: drop whitespace on both ends. -/
def pyStrip (s : String) : String :=
  ⟨List.rdropWhile isPySpace (s.data.dropWhile isPySpace)⟩

/-- Model of Python `str.startswith(p)`. -/
def pyStartsWith (s p : String) : Bool :=
  s.data.take p.data.length = p.data

/-- Model of Python `str.lower()` (character-wise `Char.toLower`; ASCII,
which is all the repository's group names use). -/
def pyLower (s : String) : String :=
  ⟨s.data.map Char.toLower⟩

/-- Model of Python `str.replace("-", "_")` (single-character replace). -/
def pyReplaceDash (s : String) : String :=
  ⟨s.data.map (fun c => if c = '-' then '_' else c)⟩

/-- Modelled from the spec: the record model lives in
`scripts/core/models.py`, which is not part of the sources given here
(only its callers and tests are).  Per the spec's data model, a record
carries two candidate identity keys (`hostname`, `cname`), a validated
`environment`, a `status` (`active` or `decommissioned`), and the
optional grouping attributes `application_service`, an ordered list of
product ids, `site_code` and `batch_number`.  Absent string attributes
are the empty string (Python falsy). -/
structure Host where
  hostname : String
  cname : String
  environment : String
  status : String
  application_service : String
  product_ids : List String
  site_code : String
  batch_number : String
  deriving DecidableEq, Repr

/-- Modelled from the spec: group-name normalization used by the record
model's derived group names (`scripts/core/models.py` is missing from
the sources).  The spec requires names to be lower-cased with
non-alphanumeric separators normalized to `_` and a fixed category
prefix added by the caller. -/
def specNormalize (s : String) : String :=
  ⟨s.data.map (fun c => if c.isAlphanum then Char.toLower c else '_')⟩

/-- Modelled from the spec: `Host.is_active` is `status == "active"`. -/
def Host.is_active (h : Host) : Bool :=
  h.status = "active"

/-- Modelled from the spec: `canonical_key(kind)` returns
primary-name-or-alternate (or alternate-or-primary) depending on the
configured inventory key, matching the fallback logic visible in
`load_csv_data` (`scripts/core/utils.py`, lines 140-146). -/
def Host.get_inventory_key_value (h : Host) (inventoryKey : String) : String :=
  if inventoryKey = "cname" then
    (if h.cname ≠ "" then h.cname else h.hostname)
  else
    (if h.hostname ≠ "" then h.hostname else h.cname)

/-- Modelled from the spec: `application_group_name()` is
`app_{normalized(application_service)}`, or empty when there is no
application service. -/
def Host.get_app_group_name (h : Host) : String :=
  if h.application_service = "" then "" else "app_" ++ specNormalize h.application_service

/-- Modelled from the spec: the non-empty product ids of the record. -/
def Host.get_product_ids (h : Host) : List String :=
  h.product_ids.filter (fun p => p ≠ "")

/-- Modelled from the spec: `product_group_names()` is one
`product_{normalized(id)}` per non-empty product id. -/
def Host.get_product_group_names (h : Host) : List String :=
  (h.get_product_ids).map (fun p => "product_" ++ specNormalize p)

/-- Modelled from the spec: `batch_group_name()` is
`batch_{normalized(batch_number)}`, or empty when absent. -/
def Host.get_batch_group_name (h : Host) : String :=
  if h.batch_number = "" then "" else "batch_" ++ specNormalize h.batch_number

/-- Modelled from the spec: the host-vars file name is the record's
canonical key plus the fixed `.yml` extension. -/
def Host.get_host_vars_filename (h : Host) (inventoryKey : String) : String :=
  h.get_inventory_key_value inventoryKey ++ ".yml"

/-- Site group name, from `inventory_manager.py` line 436:
`f"site_{site_code_str.lower().replace('-', '_')}"` applied to the
stripped site code. -/
def siteGroupName (siteCodeStr : String) : String :=
  "site_" ++ pyReplaceDash (pyLower siteCodeStr)

/-- One group entry of the inventory dictionary built by
`build_environment_inventory`: the `hosts` and `children` dict keys
(values there are always the empty dict, so they are sets of names).
The synthetic `all` entry is created as `{"children": {}}` without a
`hosts` key (line 399), recorded by `hasHostsKey`. -/
structure InvEntry where
  hasHostsKey : Bool
  hosts : Finset String
  children : Finset String
  deriving DecidableEq

/-- The inventory dictionary, as a mapping from group name to entry
(`none` for absent keys).  Python dict insertion order is irrelevant to
every claim below (the writer serializes with `sort_keys=True`). -/
def Inv : Type := String → Option InvEntry

/-- The entry a `defaultdict(lambda: {"hosts": {}, "children": {}})`
creates on first access. -/
def defaultEntry : InvEntry := ⟨true, ∅, ∅⟩

/-- Dictionary update at one key. -/
def setInv (inv : Inv) (k : String) (e : InvEntry) : Inv :=
  fun g => if g = k then some e else inv g

/-- The `if g not in inventory: inventory[g] = {"hosts": {}, "children": {}}`
pattern. -/
def ensure (inv : Inv) (k : String) : Inv :=
  if (inv k).isSome then inv else setInv inv k defaultEntry

/-- The `inventory[k]["children"][c] = {}` statement (defaultdict
semantics on the outer access). -/
def addChild (inv : Inv) (k c : String) : Inv :=
  let e := (inv k).getD defaultEntry
  setInv inv k ⟨e.hasHostsKey, e.hosts, insert c e.children⟩

/-- The `inventory[k]["hosts"][x] = {}` statement (defaultdict semantics
on the outer access). -/
def addHostTo (inv : Inv) (k x : String) : Inv :=
  let e := (inv k).getD defaultEntry
  setInv inv k ⟨e.hasHostsKey, insert x e.hosts, e.children⟩

/-- One primitive dictionary mutation of the loop body of
`build_environment_inventory`. -/
inductive Act where
  | ens (k : String)
  | child (k c : String)
  | hostAdd (k x : String)
  deriving DecidableEq

/-- Interpretation of one primitive mutation. -/
def applyAct (inv : Inv) : Act → Inv
  | .ens k => ensure inv k
  | .child k c => addChild inv k c
  | .hostAdd k x => addHostTo inv k x

/-- Linearization of the loop body of `build_environment_inventory`
(`inventory_manager.py` lines 401-449) for one record: the exact
sequence of dictionary mutations the Python code performs for `host`,
in source order.  Records of another environment are skipped
(lines 402-403). -/
def actsOf (inventoryKey environment : String) (h : Host) : List Act :=
  if h.environment ≠ environment then [] else
  [.ens ("env_" ++ environment), .child "all" ("env_" ++ environment),
   .hostAdd ("env_" ++ environment) (h.get_inventory_key_value inventoryKey)]
    ++ (if h.application_service ≠ "" then
          if h.get_app_group_name ≠ "" then
            [.ens h.get_app_group_name,
             .child ("env_" ++ environment) h.get_app_group_name,
             .hostAdd h.get_app_group_name (h.get_inventory_key_value inventoryKey)]
              ++ (if h.get_product_ids ≠ [] then
                    h.get_product_group_names.flatMap
                      (fun pg => [.ens pg, .child h.get_app_group_name pg,
                        .hostAdd pg (h.get_inventory_key_value inventoryKey)])
                  else [])
          else []
        else [])
    ++ (if h.site_code ≠ "" then
          if pyStrip h.site_code ≠ "" then
            [.ens (siteGroupName (pyStrip h.site_code)),
             .child ("env_" ++ environment) (siteGroupName (pyStrip h.site_code)),
             .hostAdd (siteGroupName (pyStrip h.site_code))
               (h.get_inventory_key_value inventoryKey)]
          else []
        else [])
    ++ (if h.batch_number ≠ "" then
          if h.get_batch_group_name ≠ "" then
            [.ens h.get_batch_group_name,
             .child ("env_" ++ environment) h.get_batch_group_name,
             .hostAdd h.get_batch_group_name (h.get_inventory_key_value inventoryKey)]
          else []
        else [])

/-- Effect of one loop iteration of `build_environment_inventory` on the
inventory dictionary. -/
def addHostRecord (inventoryKey environment : String) (inv : Inv) (h : Host) : Inv :=
  (actsOf inventoryKey environment h).foldl applyAct inv

/-- Initial dictionary of `build_environment_inventory` (lines 396-399):
a defaultdict holding only `all ↦ {"children": {}}`. -/
def initInv : Inv :=
  fun g => if g = "all" then some ⟨false, ∅, ∅⟩ else none

/-- `build_environment_inventory` (`inventory_manager.py` lines 392-451):
fold the loop body over the record list. -/
def build_environment_inventory (inventoryKey : String) (hosts : List Host)
    (environment : String) : Inv :=
  hosts.foldl (addHostRecord inventoryKey environment) initInv

/-- Contribution of a batch of mutations to the dictionary: per group
name, the host names and child names inserted there (`none` when the
group is not touched). -/
def Contrib : Type := String → Option (Finset String × Finset String)

/-- The contribution that touches nothing. -/
def emptyContrib : Contrib := fun _ => none

/-- Contribution of one primitive mutation. -/
def deltaAct : Act → Contrib
  | .ens k => fun g => if g = k then some (∅, ∅) else none
  | .child k c => fun g => if g = k then some (∅, {c}) else none
  | .hostAdd k x => fun g => if g = k then some ({x}, ∅) else none

/-- Pointwise union of contributions. -/
def cunion (a b : Contrib) : Contrib := fun g =>
  match a g, b g with
  | none, o => o
  | some p, none => some p
  | some p, some q => some (p.1 ∪ q.1, p.2 ∪ q.2)

/-- Applying a contribution to an inventory dictionary: a touched,
absent key is created with the defaultdict entry shape; a present key
keeps its `hasHostsKey` flag and unions the sets. -/
def joinC (inv : Inv) (c : Contrib) : Inv := fun g =>
  match inv g, c g with
  | none, none => none
  | none, some p => some ⟨true, p.1, p.2⟩
  | some e, none => some e
  | some e, some p => some ⟨e.hasHostsKey, e.hosts ∪ p.1, e.children ∪ p.2⟩

/-- Combined contribution of a mutation sequence. -/
def deltaActs (acts : List Act) : Contrib :=
  acts.foldr (fun a c => cunion (deltaAct a) c) emptyContrib

/-- A line is blank after stripping (`line.strip() == ""`). -/
def blankLine (l : String) : Bool :=
  pyStrip l = ""

/-- A line whose stripped form starts with the timestamp marker
(`line.strip().startswith("# Generated at:")`). -/
def isTimestampLine (l : String) : Bool :=
  pyStartsWith (pyStrip l) "# Generated at:"

/-- Timestamp extraction of `write_inventory_file` (lines 489-492): the
first line whose stripped form starts with `# Generated at:`, stripped. -/
def extractTimestamp (lines : List String) : Option String :=
  (lines.find? isTimestampLine).map pyStrip

/-- Body-start scan of `write_inventory_file` (lines 495-503): walk the
lines from index 1 keeping the previous line; the first blank line whose
predecessor is a timestamp line yields `yaml_start_index = i + 1`. -/
def treeYamlStartAux : String → List String → Nat → Option Nat
  | _, [], _ => none
  | prev, l :: rest, i =>
    if blankLine l ∧ isTimestampLine prev then some (i + 1)
    else treeYamlStartAux l rest (i + 1)

/-- Entry point of the body-start scan (the Python loop's `i > 0` guard
means the first line can never match). -/
def treeYamlStart : List String → Option Nat
  | [] => none
  | l0 :: rest => treeYamlStartAux l0 rest 1

/-- Existing-body extraction of `write_inventory_file` (lines 505-506). -/
def extractTreeBody (lines : List String) : Option (List String) :=
  (treeYamlStart lines).map (fun i => lines.drop i)

/-- Banner separator line written by `write_inventory_file`. -/
def bannerSep : String :=
  "# ----------------------------------------------------------------------"

/-- Banner line 2 of the generated tree file. -/
def autoGenLine : String := "# AUTO-GENERATED FILE - DO NOT EDIT MANUALLY"

/-- Banner line 3 of the generated tree file. -/
def generatedByLine : String :=
  "# This file is generated by the inventory management system."

/-- Banner line 4 of the generated tree file. -/
def manualChangesLine : String :=
  "# Any manual changes will be overwritten the next time inventory is generated."

/-- Comment line written after the title. -/
def generatedFromLine : String :=
  "# Generated from enhanced CSV with CMDB and patch management integration"

/-- Fresh timestamp line (line 521-523); `now` is
`datetime.now().strftime("%Y-%m-%d %H:%M:%S")`. -/
def freshTimestampLine (now : String) : String :=
  "# Generated at: " ++ now

/-- Header block written by `write_inventory_file` (lines 532-549),
as lines, followed by the blank separator line. -/
def treeHeaderLines (title timestampLine : String) : List String :=
  [bannerSep, autoGenLine, generatedByLine, manualChangesLine, bannerSep,
   "# " ++ title ++ " Inventory", generatedFromLine, timestampLine, ""]

/-- Pruning step of `write_inventory_file` (lines 463-468): keep only
groups whose `hosts` dict (defaulting to `{}` when the key is absent,
as for `all`) is non-empty. -/
def filterInventory (inv : Inv) : Inv := fun g =>
  (inv g).bind (fun e => if e.hasHostsKey ∧ e.hosts ≠ ∅ then some e else none)

/-- `write_inventory_file` (`inventory_manager.py` lines 453-550),
modelled on the file content level.  `existing` is the current content
of the target file (`none` when absent), `body` the serialized YAML of
the pruned inventory (a deterministic, key-sorted function of the tree,
so identical across runs with unchanged records).  Returns
`some newContent`; the `some` is unconditional because lines 531-550
open the file for writing and rewrite it on every call (a skipped write
would be `none`). -/
def write_inventory_file (existing : Option (List String)) (title now : String)
    (body : List String) : Option (List String) :=
  some (treeHeaderLines title
    (if existing.bind extractTreeBody = some body then
      match existing.bind extractTimestamp with
      | some ts => ts
      | none => freshTimestampLine now
    else freshTimestampLine now) ++ body)

/-- Default of the `HOST_VARS_HEADER` configuration constant
(`scripts/core/config.py` lines 300-302). -/
def hostVarsHeaderText : String :=
  "Generated from enhanced CSV with CMDB and patch management fields"

/-- Header block written by `create_host_vars` (lines 384-388). -/
def hostVarsHeaderLines (primaryId : String) : List String :=
  ["---", "# Host variables for " ++ primaryId, "# " ++ hostVarsHeaderText, ""]

/-- Body-start scan of `create_host_vars` (lines 362-366): the first
blank line at index `i > 0` yields `yaml_start_index = i + 1`. -/
def hostVarsYamlStartAux : List String → Nat → Option Nat
  | [], _ => none
  | l :: rest, i =>
    if blankLine l then some (i + 1) else hostVarsYamlStartAux rest (i + 1)

/-- Entry point of the host-vars body-start scan. -/
def hostVarsYamlStart : List String → Option Nat
  | [] => none
  | _ :: rest => hostVarsYamlStartAux rest 1

/-- `create_host_vars` (`inventory_manager.py` lines 278-390), modelled
on the file content level: `existing` is the current file content,
`body` the serialized, key-sorted YAML of the host's variables.
Returns `some newContent` when the file is opened and written
(lines 383-390) and `none` when the write is skipped because the
existing body equals the new one (lines 355-374). -/
def create_host_vars (existing : Option (List String)) (primaryId : String)
    (body : List String) : Option (List String) :=
  if (match existing with
      | none => true
      | some lines =>
        match hostVarsYamlStart lines with
        | none => true
        | some i => decide (lines.drop i ≠ body)) then
    some (hostVarsHeaderLines primaryId ++ body)
  else none

/-- One immediate file of the host-vars directory: base name (stem) and
extension. -/
structure DirFile where
  stem : String
  ext : String
  deriving DecidableEq, Repr

/-- Valid-identifier set of `cleanup_orphaned_host_vars` (lines
121-127): hostnames and cnames of all loaded records, truthy ones only,
with no status filtering. -/
def validIdentifiers (hosts : List Host) : Finset String :=
  hosts.foldr
    (fun h s =>
      (if h.hostname ≠ "" then {h.hostname} else ∅) ∪
        (if h.cname ≠ "" then {h.cname} else ∅) ∪ s)
    ∅

/-- Orphan detection of `cleanup_orphaned_host_vars` (lines 129-135):
the immediate `*.yml` files whose stem is not a valid identifier. -/
def orphanedOf (hosts : List Host) (dir : List DirFile) : List DirFile :=
  dir.filter (fun f => decide (f.ext = "yml") && decide (f.stem ∉ validIdentifiers hosts))

/-- `cleanup_orphaned_host_vars` (`inventory_manager.py` lines 103-163).
`cleanupEnabled` is the `features.cleanup_orphaned_on_generate`
configuration flag (lines 116-119); `unlinkFails` marks files whose
deletion raises (caught and skipped, lines 152-158).  Returns the
reported count and the directory content afterwards. -/
def cleanup_orphaned_host_vars (cleanupEnabled : Bool) (hosts : List Host)
    (dir : List DirFile) (dryRun : Bool) (unlinkFails : DirFile → Bool) :
    Nat × List DirFile :=
  if !cleanupEnabled then (0, dir) else
  let orphaned := orphanedOf hosts dir
  if orphaned = [] then (0, dir) else
  if dryRun then (orphaned.length, dir) else
  ((orphaned.filter (fun f => !unlinkFails f)).length,
   dir.filter (fun f => !(decide (f ∈ orphaned) && !unlinkFails f)))

/-- Outcome of `load_hosts` as observed by `generate_inventories`:
either the CSV file is missing (`FileNotFoundError`) or a list of
validated records is produced. -/
inductive LoadResult where
  | notFound (msg : String)
  | ok (hosts : List Host)
  deriving DecidableEq, Repr

/-- Result value of `generate_inventories`, restricted to the fields
the specification's claims are about (the full dict also carries stats,
environment and orphan counts). -/
structure GenResult where
  status : String
  error : Option String
  generated_files : List String
  dry_run : Bool
  deriving DecidableEq, Repr

/-- Environment code lookup (`get_environment_info_from_code`, external
mapping): full name and inventory file name for a code, with the
fallback of lines 206-208 when absent. -/
def envNameAndFile (envInfo : String → Option (String × String)) (env : String) :
    String × String :=
  match envInfo env with
  | some nf => nf
  | none => (env, env ++ ".yml")

/-- Per-environment record filter of `generate_inventories`
(lines 211-215). -/
def envHostsFor (hosts : List Host) (env envName : String) : List Host :=
  hosts.filter (fun h => h.environment == env || h.environment == envName)

/-- One iteration of the environment loop of `generate_inventories`
(lines 200-242): skip when no records match the environment (lines
217-221), skip actual generation on dry runs (lines 223-227), continue
past a raised per-environment exception (lines 236-242), and otherwise
append the generated file (lines 229-234). -/
def genStep (envInfo : String → Option (String × String)) (hosts : List Host)
    (dryRun : Bool) (envFails : String → Bool) (acc : List String)
    (env : String) : List String :=
  if envHostsFor hosts env (envNameAndFile envInfo env).1 = [] then acc
  else if dryRun then acc
  else if envFails env then acc
  else acc ++ [(envNameAndFile envInfo env).2]

/-- `generate_inventories` (`inventory_manager.py` lines 165-276),
modelled at the control-flow level of its claims.  `load` is the
outcome of `load_hosts`; `envFails` abstracts whether the per-
environment `_generate_inventory_file` call raises (the exception is
caught at lines 236-242 and the loop continues).  Generated file names
stand for the returned file paths. -/
def generate_inventories (envInfo : String → Option (String × String))
    (load : LoadResult) (targetEnvironments : List String) (dryRun : Bool)
    (envFails : String → Bool) : GenResult :=
  match load with
  | .notFound msg =>
    ⟨"error", some ("CSV source file not found: " ++ msg), [], dryRun⟩
  | .ok hosts =>
    if hosts = [] then
      ⟨"error", some "Failed to generate inventories: No valid hosts found in CSV file",
        [], dryRun⟩
    else
      ⟨"success", none,
        targetEnvironments.foldl (genStep envInfo hosts dryRun envFails) [], dryRun⟩

/-- `_generate_inventory_file` (`inventory_manager.py` lines 552-604),
restricted to what it feeds the writers: host-vars files are created
for the active records only (lines 572-575) and the tree is built from
the active records only (line 578).  Returns the list of host-vars file
names written and the built tree. -/
def generateInventoryFile (inventoryKey environment : String) (hosts : List Host) :
    List String × Inv :=
  let activeHosts := hosts.filter (fun h => h.is_active)
  (activeHosts.map (fun h => h.get_host_vars_filename inventoryKey),
   build_environment_inventory inventoryKey activeHosts environment)

theorem joinC_empty (inv : Inv) : joinC inv emptyContrib = inv := by
  funext g
  unfold joinC emptyContrib
  cases inv g <;> rfl

theorem applyAct_eq_join (inv : Inv) (a : Act) :
    applyAct inv a = joinC inv (deltaAct a) := by
  cases a with
  | ens k =>
    funext g
    simp only [applyAct, ensure, joinC, deltaAct, setInv, defaultEntry]
    by_cases hg : g = k
    · subst hg
      cases he : inv g <;> simp [he, setInv]
    · cases he : inv k <;> cases hq : inv g <;> simp [he, hq, hg, setInv]
  | child k c =>
    funext g
    simp only [applyAct, addChild, joinC, deltaAct, setInv, defaultEntry]
    by_cases hg : g = k
    · subst hg
      cases he : inv g with
      | none => simp [he]
      | some e => simp [he, Finset.union_comm, Finset.insert_eq]
    · simp [hg]
      cases inv g <;> simp
  | hostAdd k x =>
    funext g
    simp only [applyAct, addHostTo, joinC, deltaAct, setInv, defaultEntry]
    by_cases hg : g = k
    · subst hg
      cases he : inv g with
      | none => simp [he]
      | some e => simp [he, Finset.union_comm, Finset.insert_eq]
    · simp [hg]
      cases inv g <;> simp

theorem joinC_joinC (inv : Inv) (a b : Contrib) :
    joinC (joinC inv a) b = joinC inv (cunion a b) := by
  funext g
  simp only [joinC, cunion]
  cases inv g <;> cases a g <;> cases b g <;> simp [Finset.union_assoc]

theorem cunion_comm (a b : Contrib) : cunion a b = cunion b a := by
  funext g
  simp only [cunion]
  cases a g <;> cases b g <;> simp [Finset.union_comm]

theorem cunion_self (a : Contrib) : cunion a a = a := by
  funext g
  simp only [cunion]
  cases a g <;> simp

theorem foldl_applyAct_eq_join (acts : List Act) (inv : Inv) :
    acts.foldl applyAct inv = joinC inv (deltaActs acts) := by
  induction acts generalizing inv with
  | nil => simp [deltaActs, joinC_empty]
  | cons a as ih =>
    simp only [List.foldl_cons, deltaActs, List.foldr_cons]
    rw [ih, applyAct_eq_join, joinC_joinC]
    rfl

theorem addHostRecord_eq_join (inventoryKey environment : String) (inv : Inv) (h : Host) :
    addHostRecord inventoryKey environment inv h =
      joinC inv (deltaActs (actsOf inventoryKey environment h)) :=
  foldl_applyAct_eq_join _ _

theorem addHostRecord_comm (inventoryKey environment : String) (inv : Inv) (a b : Host) :
    addHostRecord inventoryKey environment
        (addHostRecord inventoryKey environment inv a) b =
      addHostRecord inventoryKey environment
        (addHostRecord inventoryKey environment inv b) a := by
  simp only [addHostRecord_eq_join, joinC_joinC]
  rw [cunion_comm]

theorem data_append (s t : String) : (s ++ t).data = s.data ++ t.data := by
  cases s
  cases t
  rfl

theorem pyStrip_idem (s : String) : pyStrip (pyStrip s) = pyStrip s := by
  unfold pyStrip
  congr 1
  have hdrop :
      List.dropWhile isPySpace
          (List.rdropWhile isPySpace (s.data.dropWhile isPySpace)) =
        List.rdropWhile isPySpace (s.data.dropWhile isPySpace) := by
    cases hre : List.rdropWhile isPySpace (s.data.dropWhile isPySpace) with
    | nil => simp
    | cons a t =>
      have hpre : List.rdropWhile isPySpace (s.data.dropWhile isPySpace) <+:
          s.data.dropWhile isPySpace := List.rdropWhile_prefix _ _
      rw [hre] at hpre
      rcases hpre with ⟨u, hu⟩
      have hne : s.data.dropWhile isPySpace ≠ [] := by
        rw [← hu]
        simp
      have hna : isPySpace ((s.data.dropWhile isPySpace).head hne) = false :=
        List.head_dropWhile_not isPySpace s.data hne
      have hhead : (s.data.dropWhile isPySpace).head hne = a := by
        have : s.data.dropWhile isPySpace = a :: (t ++ u) := by
          rw [← hu]
          rfl
        simp [this]
      rw [hhead] at hna
      simp [List.dropWhile_cons, hna]
  rw [hdrop, List.rdropWhile_idempotent]

theorem pyStartsWith_append_self (p rest : String) :
    pyStartsWith (p ++ rest) p = true := by
  unfold pyStartsWith
  rw [data_append, List.take_left]
  simp

theorem ne_empty_of_pyStartsWith {s p : String} (hp : p ≠ "")
    (h : pyStartsWith s p = true) : s ≠ "" := by
  intro hs
  subst hs
  apply hp
  unfold pyStartsWith at h
  have h' : List.take p.data.length (("" : String).data) = p.data :=
    of_decide_eq_true h
  have hd : p.data = [] := by simpa using h'.symm
  cases p
  simp_all

/-- The fresh timestamp line splits as the marker followed by the rest. -/
theorem freshTimestampLine_eq (now : String) :
    freshTimestampLine now = "# Generated at:" ++ (" " ++ now) := by
  unfold freshTimestampLine
  rw [← String.append_assoc]
  rfl

theorem isTimestampLine_fresh (now : String)
    (h : pyStrip (freshTimestampLine now) = freshTimestampLine now) :
    isTimestampLine (freshTimestampLine now) = true := by
  unfold isTimestampLine
  rw [h, freshTimestampLine_eq]
  exact pyStartsWith_append_self _ _

theorem blankLine_of_isTimestampLine {l : String}
    (h : isTimestampLine l = true) : blankLine l = false := by
  unfold isTimestampLine at h
  unfold blankLine
  have : pyStrip l ≠ "" := ne_empty_of_pyStartsWith (by decide) h
  simp [this]

theorem isTimestampLine_pyStrip {l : String} (h : isTimestampLine l = true) :
    isTimestampLine (pyStrip l) = true := by
  unfold isTimestampLine at h ⊢
  rwa [pyStrip_idem]

theorem blankLine_pyStrip {l : String} (h : blankLine l = false) :
    blankLine (pyStrip l) = false := by
  unfold blankLine at h ⊢
  rwa [pyStrip_idem]

theorem lit_bannerSep : isTimestampLine bannerSep = false ∧ blankLine bannerSep = false := by
  decide

theorem lit_autoGen : isTimestampLine autoGenLine = false ∧ blankLine autoGenLine = false := by
  decide

theorem lit_generatedBy :
    isTimestampLine generatedByLine = false ∧ blankLine generatedByLine = false := by
  decide

theorem lit_manualChanges :
    isTimestampLine manualChangesLine = false ∧ blankLine manualChangesLine = false := by
  decide

theorem lit_generatedFrom :
    isTimestampLine generatedFromLine = false ∧ blankLine generatedFromLine = false := by
  decide

theorem lit_blankEmpty : blankLine "" = true := by
  decide

/-- Re-reading a tree file written with timestamp line `ts` finds `ts`
(stripped) as its timestamp. -/
theorem extractTimestamp_header (title ts : String) (body : List String)
    (hts1 : isTimestampLine ts = true)
    (ht1 : isTimestampLine ("# " ++ title ++ " Inventory") = false) :
    extractTimestamp (treeHeaderLines title ts ++ body) = some (pyStrip ts) := by
  unfold extractTimestamp treeHeaderLines
  simp [lit_bannerSep.1, lit_autoGen.1, lit_generatedBy.1, lit_manualChanges.1,
    lit_generatedFrom.1, ht1, hts1]

/-- Re-reading a tree file written with header block and body recovers
exactly the body. -/
theorem extractTreeBody_header (title ts : String) (body : List String)
    (hts1 : isTimestampLine ts = true) (hts2 : blankLine ts = false)
    (ht2 : blankLine ("# " ++ title ++ " Inventory") = false) :
    extractTreeBody (treeHeaderLines title ts ++ body) = some body := by
  have hstart : treeYamlStart (treeHeaderLines title ts ++ body) = some 9 := by
    unfold treeHeaderLines
    simp only [List.cons_append, List.nil_append, treeYamlStart]
    rw [treeYamlStartAux, if_neg (by simp [lit_autoGen.2])]
    rw [treeYamlStartAux, if_neg (by simp [lit_generatedBy.2])]
    rw [treeYamlStartAux, if_neg (by simp [lit_manualChanges.2])]
    rw [treeYamlStartAux, if_neg (by simp [lit_bannerSep.2])]
    rw [treeYamlStartAux, if_neg (by simp [ht2])]
    rw [treeYamlStartAux, if_neg (by simp [lit_generatedFrom.2])]
    rw [treeYamlStartAux, if_neg (by simp [hts2])]
    rw [treeYamlStartAux, if_pos (by simp [lit_blankEmpty, hts1])]
  unfold extractTreeBody
  rw [hstart]
  unfold treeHeaderLines
  simp only [Option.map_some, List.cons_append, List.nil_append]
  rfl

/-- Rewriting an unchanged tree file reproduces it byte for byte: the
regenerated body matches the existing one, so the previously recorded
timestamp line is reused and the written content equals the existing
content (the file is still opened and rewritten). -/
theorem write_inventory_file_unchanged (title ts now : String) (body : List String)
    (hts1 : isTimestampLine ts = true) (hts2 : blankLine ts = false)
    (hts3 : pyStrip ts = ts)
    (ht1 : isTimestampLine ("# " ++ title ++ " Inventory") = false)
    (ht2 : blankLine ("# " ++ title ++ " Inventory") = false) :
    write_inventory_file (some (treeHeaderLines title ts ++ body)) title now body =
      some (treeHeaderLines title ts ++ body) := by
  unfold write_inventory_file
  simp only [Option.some_bind]
  rw [extractTimestamp_header title ts body hts1 ht1,
    extractTreeBody_header title ts body hts1 hts2 ht2, hts3]
  simp

theorem lit_hvDashes : blankLine "---" = false := by
  decide

theorem lit_hvHeader : blankLine ("# " ++ hostVarsHeaderText) = false := by
  decide

/-- Re-reading a host-vars file written by `create_host_vars` finds the
body right after the four header lines. -/
theorem hostVarsYamlStart_header (pid : String) (body : List String)
    (hpid : blankLine ("# Host variables for " ++ pid) = false) :
    hostVarsYamlStart (hostVarsHeaderLines pid ++ body) = some 4 := by
  unfold hostVarsHeaderLines hostVarsYamlStart
  simp only [List.cons_append, List.nil_append]
  rw [hostVarsYamlStartAux, if_neg (by simp [hpid])]
  rw [hostVarsYamlStartAux, if_neg (by simp [lit_hvHeader])]
  rw [hostVarsYamlStartAux, if_pos (by simp [lit_blankEmpty])]

/-- Regenerating an unchanged host-vars file skips the write. -/
theorem create_host_vars_unchanged (pid : String) (body : List String)
    (hpid : blankLine ("# Host variables for " ++ pid) = false) :
    create_host_vars (some (hostVarsHeaderLines pid ++ body)) pid body = none := by
  have hdrop : (hostVarsHeaderLines pid ++ body).drop 4 = body := by
    unfold hostVarsHeaderLines
    simp only [List.cons_append, List.nil_append]
    rfl
  unfold create_host_vars
  simp [hostVarsYamlStart_header pid body hpid, hdrop]

/-- Whenever `create_host_vars` writes, it writes the canonical header
plus the body. -/
theorem create_host_vars_some_shape {existing : Option (List String)}
    {pid : String} {body c : List String}
    (h : create_host_vars existing pid body = some c) :
    c = hostVarsHeaderLines pid ++ body := by
  unfold create_host_vars at h
  split at h
  · exact (Option.some_inj.mp h).symm
  · exact absurd h (by simp)

/-- A timestamp extracted from an existing file is a stripped timestamp
line. -/
theorem extractTimestamp_wf {lines : List String} {t : String}
    (h : extractTimestamp lines = some t) :
    isTimestampLine t = true ∧ blankLine t = false ∧ pyStrip t = t := by
  unfold extractTimestamp at h
  rcases Option.map_eq_some'.mp h with ⟨l, hfind, hl⟩
  have hts : isTimestampLine l = true := List.find?_some hfind
  subst hl
  exact ⟨isTimestampLine_pyStrip hts,
    blankLine_of_isTimestampLine (isTimestampLine_pyStrip hts), pyStrip_idem l⟩

/-- Every tree write produces the header block with a wellformed
timestamp line followed by the body. -/
theorem write_inventory_file_shape (existing : Option (List String))
    (title now : String) (body : List String)
    (hnow : pyStrip (freshTimestampLine now) = freshTimestampLine now) :
    ∃ ts, write_inventory_file existing title now body =
        some (treeHeaderLines title ts ++ body) ∧
      isTimestampLine ts = true ∧ blankLine ts = false ∧ pyStrip ts = ts := by
  have hfresh1 : isTimestampLine (freshTimestampLine now) = true :=
    isTimestampLine_fresh now hnow
  have hfresh2 : blankLine (freshTimestampLine now) = false :=
    blankLine_of_isTimestampLine hfresh1
  unfold write_inventory_file
  by_cases hb : existing.bind extractTreeBody = some body
  · rw [if_pos hb]
    cases het : existing.bind extractTimestamp with
    | none => exact ⟨freshTimestampLine now, rfl, hfresh1, hfresh2, hnow⟩
    | some t =>
      have hwf : isTimestampLine t = true ∧ blankLine t = false ∧ pyStrip t = t := by
        cases existing with
        | none => simp at het
        | some lines => exact extractTimestamp_wf (by simpa using het)
      exact ⟨t, rfl, hwf⟩
  · rw [if_neg hb]
    exact ⟨freshTimestampLine now, rfl, hfresh1, hfresh2, hnow⟩

/-- C1: running generation twice in succession over the same unchanged
source records produces, on the second run, output files byte-identical
to those of the first run.  First conjunct: whatever tree file content
the first run writes, the second run writes exactly the same content,
`# Generated at:` line included (it is preserved, not refreshed).
Second conjunct: whatever host-vars file content is on disk after the
first run (freshly written, or left in place by a skipped write), the
second run skips the write, leaving the bytes identical. -/
theorem claim_C1 (title t1 t2 pid : String) (body bodyHV : List String)
    (treeFile0 hostVarsFile0 : Option (List String))
    (hnow : pyStrip (freshTimestampLine t1) = freshTimestampLine t1)
    (ht1 : isTimestampLine ("# " ++ title ++ " Inventory") = false)
    (ht2 : blankLine ("# " ++ title ++ " Inventory") = false)
    (hpid : blankLine ("# Host variables for " ++ pid) = false) :
    (∀ C, write_inventory_file treeFile0 title t1 body = some C →
        write_inventory_file (some C) title t2 body = some C) ∧
    (∀ D, (create_host_vars hostVarsFile0 pid bodyHV = some D ∨
        (create_host_vars hostVarsFile0 pid bodyHV = none ∧ hostVarsFile0 = some D)) →
        create_host_vars (some D) pid bodyHV = none) := by
  constructor
  · intro C hC
    rcases write_inventory_file_shape treeFile0 title t1 body hnow with
      ⟨ts, hw, hw1, hw2, hw3⟩
    rw [hC] at hw
    rw [Option.some_inj.mp hw]
    exact write_inventory_file_unchanged title ts t2 body hw1 hw2 hw3 ht1 ht2
  · intro D hD
    rcases hD with hsome | ⟨hnone, hE⟩
    · rw [create_host_vars_some_shape hsome]
      exact create_host_vars_unchanged pid bodyHV hpid
    · rw [hE] at hnone
      exact hnone

/-- C1 witness: concrete two-run instance. -/
theorem claim_C1_witness :
    (∀ C, write_inventory_file none "Production Environment" "2024-01-01 00:00:00"
        ["env_production:", "  hosts:", "    web01: {}"] = some C →
      write_inventory_file (some C) "Production Environment" "2024-05-05 12:34:56"
        ["env_production:", "  hosts:", "    web01: {}"] = some C) ∧
    (∀ D, (create_host_vars none "web01" ["environment: production"] = some D ∨
        (create_host_vars none "web01" ["environment: production"] = none ∧
          none = some D)) →
      create_host_vars (some D) "web01" ["environment: production"] = none) :=
  claim_C1 "Production Environment" "2024-01-01 00:00:00" "2024-05-05 12:34:56" "web01"
    ["env_production:", "  hosts:", "    web01: {}"] ["environment: production"]
    none none (by decide) (by decide) (by decide) (by decide)

theorem applyAct_idem (a : Act) (inv : Inv) :
    applyAct (applyAct inv a) a = applyAct inv a := by
  rw [applyAct_eq_join, applyAct_eq_join, joinC_joinC, cunion_self]

theorem addHostRecord_skip (inventoryKey environment : String) (inv : Inv)
    (h : Host) (hne : h.environment ≠ environment) :
    addHostRecord inventoryKey environment inv h = inv := by
  unfold addHostRecord actsOf
  rw [if_pos hne]
  rfl

theorem build_frame (inventoryKey environment : String) (pre post : List Host)
    (a b : Host) (ha : a.environment ≠ environment)
    (hb : b.environment ≠ environment) :
    build_environment_inventory inventoryKey (pre ++ a :: post) environment =
      build_environment_inventory inventoryKey (pre ++ b :: post) environment := by
  unfold build_environment_inventory
  rw [List.foldl_append, List.foldl_append, List.foldl_cons, List.foldl_cons,
    addHostRecord_skip _ _ _ _ ha, addHostRecord_skip _ _ _ _ hb]

/-- C2 counterexample: even when the regenerated body equals the body
already on disk (first conjunct), `write_inventory_file` still opens the
file and rewrites it (`some` result; a skipped write would be `none`),
so the tree file's mtime is refreshed: the claimed "no filesystem
mutation / not touched at all" is false for tree files. -/
theorem claim_C2_counterexample :
    extractTreeBody (treeHeaderLines "Production Environment"
        "# Generated at: 2024-01-01 00:00:00" ++ ["env_production:"]) =
      some ["env_production:"] ∧
    write_inventory_file (some (treeHeaderLines "Production Environment"
        "# Generated at: 2024-01-01 00:00:00" ++ ["env_production:"]))
      "Production Environment" "2024-02-02 00:00:00" ["env_production:"] ≠ none := by
  constructor
  · decide
  · simp [write_inventory_file]

/-- C2 amended: when the regenerated content equals what is on disk,
the tree file is rewritten with byte-identical content (timestamp line
preserved; the file is reopened, so its mtime is not preserved), the
host-variable write is skipped entirely, and changing one record's
grouping attributes leaves the built trees of environments not
containing that record equal. -/
theorem claim_C2 (title ts now pid : String) (body bodyHV : List String)
    (inventoryKey environment : String) (pre post : List Host) (a b : Host)
    (hts1 : isTimestampLine ts = true) (hts2 : blankLine ts = false)
    (hts3 : pyStrip ts = ts)
    (ht1 : isTimestampLine ("# " ++ title ++ " Inventory") = false)
    (ht2 : blankLine ("# " ++ title ++ " Inventory") = false)
    (hpid : blankLine ("# Host variables for " ++ pid) = false)
    (ha : a.environment ≠ environment) (hb : b.environment ≠ environment) :
    write_inventory_file (some (treeHeaderLines title ts ++ body)) title now body =
      some (treeHeaderLines title ts ++ body) ∧
    create_host_vars (some (hostVarsHeaderLines pid ++ bodyHV)) pid bodyHV = none ∧
    build_environment_inventory inventoryKey (pre ++ a :: post) environment =
      build_environment_inventory inventoryKey (pre ++ b :: post) environment :=
  ⟨write_inventory_file_unchanged title ts now body hts1 hts2 hts3 ht1 ht2,
   create_host_vars_unchanged pid bodyHV hpid,
   build_frame inventoryKey environment pre post a b ha hb⟩

/-- C2 witness: concrete unchanged write, skipped host-vars write, and a
grouping-attribute change in `production` leaving the `development`
tree equal. -/
theorem claim_C2_witness :
    write_inventory_file (some (treeHeaderLines "Production Environment"
        "# Generated at: 2024-01-01 00:00:00" ++ ["env_production:"]))
      "Production Environment" "2024-03-03 00:00:00" ["env_production:"] =
      some (treeHeaderLines "Production Environment"
        "# Generated at: 2024-01-01 00:00:00" ++ ["env_production:"]) ∧
    create_host_vars (some (hostVarsHeaderLines "web01" ++ ["environment: production"]))
      "web01" ["environment: production"] = none ∧
    build_environment_inventory "hostname"
      ([⟨"dev01", "", "development", "active", "", [], "", ""⟩] ++
        ⟨"web01", "", "production", "active", "Web Server", ["web"], "", ""⟩ ::
          []) "development" =
    build_environment_inventory "hostname"
      ([⟨"dev01", "", "development", "active", "", [], "", ""⟩] ++
        ⟨"web01", "", "production", "active", "Database", ["db"], "", ""⟩ ::
          []) "development" :=
  claim_C2 "Production Environment" "# Generated at: 2024-01-01 00:00:00"
    "2024-03-03 00:00:00" "web01" ["env_production:"] ["environment: production"]
    "hostname" "development"
    [⟨"dev01", "", "development", "active", "", [], "", ""⟩] []
    (⟨"web01", "", "production", "active", "Web Server", ["web"], "", ""⟩ : Host)
    (⟨"web01", "", "production", "active", "Database", ["db"], "", ""⟩ : Host)
    (by decide) (by decide) (by decide) (by decide) (by decide) (by decide)
    (by decide) (by decide)

/-- C3: building the environment tree from any permutation of the record
list yields the same tree (as a mapping from group name to entry), and
re-adding an existing group, host membership or parent-child
relationship — or re-processing an identical record — is idempotent
(set semantics, no duplicates). -/
theorem claim_C3 :
    (∀ (inventoryKey environment : String) (l l' : List Host), l.Perm l' →
        build_environment_inventory inventoryKey l environment =
          build_environment_inventory inventoryKey l' environment) ∧
    (∀ (inv : Inv) (k : String), ensure (ensure inv k) k = ensure inv k) ∧
    (∀ (inv : Inv) (k x : String),
        addHostTo (addHostTo inv k x) k x = addHostTo inv k x) ∧
    (∀ (inv : Inv) (k c : String),
        addChild (addChild inv k c) k c = addChild inv k c) ∧
    (∀ (inventoryKey environment : String) (inv : Inv) (h : Host),
        addHostRecord inventoryKey environment
            (addHostRecord inventoryKey environment inv h) h =
          addHostRecord inventoryKey environment inv h) := by
  refine ⟨?_, ?_, ?_, ?_, ?_⟩
  · intro inventoryKey environment l l' hperm
    unfold build_environment_inventory
    exact hperm.foldl_eq'
      (fun x _ y _ z => addHostRecord_comm inventoryKey environment z x y) initInv
  · intro inv k
    exact applyAct_idem (.ens k) inv
  · intro inv k x
    exact applyAct_idem (.hostAdd k x) inv
  · intro inv k c
    exact applyAct_idem (.child k c) inv
  · intro inventoryKey environment inv h
    simp only [addHostRecord_eq_join, joinC_joinC, cunion_self]

/-- C3 witness: a concrete two-record swap. -/
theorem claim_C3_witness :
    build_environment_inventory "hostname"
      [⟨"web01", "", "production", "active", "Web Server", ["web"], "", ""⟩,
       ⟨"db01", "", "production", "active", "Database", [], "", ""⟩] "production" =
    build_environment_inventory "hostname"
      [⟨"db01", "", "production", "active", "Database", [], "", ""⟩,
       ⟨"web01", "", "production", "active", "Web Server", ["web"], "", ""⟩]
      "production" :=
  claim_C3.1 "hostname" "production" _ _
    (List.Perm.swap
      (⟨"db01", "", "production", "active", "Database", [], "", ""⟩ : Host)
      (⟨"web01", "", "production", "active", "Web Server", ["web"], "", ""⟩ : Host) [])

/-- C4: a group present in the serialized output (the pruned inventory
passed to the YAML dump) has a non-empty hosts set, and a group whose
hosts mapping is empty — or absent, as for `all`, even when children
are present — is omitted from the written file. -/
theorem claim_C4 (inv : Inv) (g : String) :
    (∀ e, filterInventory inv g = some e → e.hosts ≠ ∅) ∧
    (∀ e, inv g = some e → (e.hasHostsKey = false ∨ e.hosts = ∅) →
      filterInventory inv g = none) := by
  constructor
  · intro e he
    unfold filterInventory at he
    cases hg : inv g with
    | none =>
      rw [hg] at he
      exact absurd he (by simp)
    | some e' =>
      rw [hg] at he
      simp only [Option.some_bind] at he
      by_cases hc : e'.hasHostsKey ∧ e'.hosts ≠ ∅
      · rw [if_pos hc] at he
        rw [← Option.some_inj.mp he]
        exact hc.2
      · rw [if_neg hc] at he
        exact absurd he (by simp)
  · intro e he hcond
    unfold filterInventory
    rw [he]
    simp only [Option.some_bind]
    rw [if_neg]
    rcases hcond with h | h <;> simp [h]

/-- C4 witness: for a concrete one-host tree, the environment group
passes the filter with its non-empty hosts set, and the `all` group
(children only, no hosts key) is omitted. -/
theorem claim_C4_witness :
    (({"web01"} : Finset String) ≠ ∅) ∧
    filterInventory
      (build_environment_inventory "hostname"
        [⟨"web01", "", "production", "active", "", [], "", ""⟩] "production")
      "all" = none :=
  ⟨(claim_C4 (build_environment_inventory "hostname"
        [⟨"web01", "", "production", "active", "", [], "", ""⟩] "production")
      "env_production").1 ⟨true, {"web01"}, ∅⟩ (by decide),
   (claim_C4 (build_environment_inventory "hostname"
        [⟨"web01", "", "production", "active", "", [], "", ""⟩] "production")
      "all").2 ⟨false, ∅, {"env_production"}⟩ (by decide) (Or.inl rfl)⟩

/-- C5: reconciliation counts and deletes exactly the immediate `*.yml`
files whose stem is not a valid identifier: orphan characterization;
dry runs report the count with the directory untouched; failure-free
real runs remove exactly the orphans and report their count; a per-file
deletion failure is skipped and excluded from the reported count, the
file staying in place. -/
theorem claim_C5 (hosts : List Host) (dir : List DirFile)
    (unlinkFails : DirFile → Bool) :
    (∀ f, f ∈ orphanedOf hosts dir ↔
        f ∈ dir ∧ f.ext = "yml" ∧ f.stem ∉ validIdentifiers hosts) ∧
    cleanup_orphaned_host_vars true hosts dir true unlinkFails =
      ((orphanedOf hosts dir).length, dir) ∧
    ((cleanup_orphaned_host_vars true hosts dir false (fun _ => false)).1 =
        (orphanedOf hosts dir).length ∧
      ∀ f, f ∈ (cleanup_orphaned_host_vars true hosts dir false (fun _ => false)).2 ↔
        f ∈ dir ∧ f ∉ orphanedOf hosts dir) ∧
    ((cleanup_orphaned_host_vars true hosts dir false unlinkFails).1 =
        ((orphanedOf hosts dir).filter (fun f => !unlinkFails f)).length ∧
      ∀ f, f ∈ (cleanup_orphaned_host_vars true hosts dir false unlinkFails).2 ↔
        f ∈ dir ∧ (f ∉ orphanedOf hosts dir ∨ unlinkFails f = true)) := by
  refine ⟨?_, ?_, ?_, ?_⟩
  · intro f
    unfold orphanedOf
    simp [List.mem_filter]
  · unfold cleanup_orphaned_host_vars
    by_cases ho : orphanedOf hosts dir = []
    · simp [ho]
    · simp [ho]
  · constructor
    · unfold cleanup_orphaned_host_vars
      by_cases ho : orphanedOf hosts dir = []
      · simp [ho]
      · simp [ho]
    · intro f
      unfold cleanup_orphaned_host_vars
      by_cases ho : orphanedOf hosts dir = []
      · simp [ho]
      · simp [ho, List.mem_filter]
  · constructor
    · unfold cleanup_orphaned_host_vars
      by_cases ho : orphanedOf hosts dir = []
      · simp [ho]
      · simp [ho]
    · intro f
      unfold cleanup_orphaned_host_vars
      by_cases ho : orphanedOf hosts dir = []
      · simp [ho]
      · by_cases hf : f ∈ dir
        · by_cases hor : f ∈ orphanedOf hosts dir <;> by_cases hu : unlinkFails f <;>
            simp [ho, hf, hor, hu, List.mem_filter]
        · simp [ho, hf, List.mem_filter]

theorem deltaAct_hosts {a : Act} {g : String} {q : Finset String × Finset String}
    (hq : deltaAct a g = some q) {k : String} (hk : k ∈ q.1) :
    a = Act.hostAdd g k := by
  cases a with
  | ens k' =>
    simp only [deltaAct] at hq
    by_cases hg : g = k'
    · rw [if_pos hg] at hq
      rw [← Option.some_inj.mp hq] at hk
      simp at hk
    · rw [if_neg hg] at hq
      exact absurd hq (by simp)
  | child k' c =>
    simp only [deltaAct] at hq
    by_cases hg : g = k'
    · rw [if_pos hg] at hq
      rw [← Option.some_inj.mp hq] at hk
      simp at hk
    · rw [if_neg hg] at hq
      exact absurd hq (by simp)
  | hostAdd k' x =>
    simp only [deltaAct] at hq
    by_cases hg : g = k'
    · rw [if_pos hg] at hq
      rw [← Option.some_inj.mp hq] at hk
      simp at hk
      rw [hg, hk]
    · rw [if_neg hg] at hq
      exact absurd hq (by simp)

theorem deltaActs_hosts {acts : List Act} {g : String}
    {p : Finset String × Finset String} (hp : deltaActs acts g = some p)
    {k : String} (hk : k ∈ p.1) : ∃ g', Act.hostAdd g' k ∈ acts := by
  induction acts generalizing p with
  | nil => exact absurd hp (by simp [deltaActs, emptyContrib])
  | cons a rest ih =>
    have hp' : cunion (deltaAct a) (deltaActs rest) g = some p := hp
    unfold cunion at hp'
    cases ha : deltaAct a g with
    | none =>
      rw [ha] at hp'
      cases hr : deltaActs rest g with
      | none =>
        rw [hr] at hp'
        exact absurd hp' (by simp)
      | some q =>
        rw [hr] at hp'
        rw [← Option.some_inj.mp hp'] at hk
        rcases ih hr hk with ⟨g', hg'⟩
        exact ⟨g', List.mem_cons_of_mem _ hg'⟩
    | some q1 =>
      rw [ha] at hp'
      cases hr : deltaActs rest g with
      | none =>
        rw [hr] at hp'
        rw [← Option.some_inj.mp hp'] at hk
        exact ⟨g, (deltaAct_hosts ha hk) ▸ List.mem_cons_self _ _⟩
      | some q2 =>
        rw [hr] at hp'
        rw [← Option.some_inj.mp hp'] at hk
        rcases Finset.mem_union.mp hk with h1 | h2
        · exact ⟨g, (deltaAct_hosts ha h1) ▸ List.mem_cons_self _ _⟩
        · rcases ih hr h2 with ⟨g', hg'⟩
          exact ⟨g', List.mem_cons_of_mem _ hg'⟩

theorem hostAdd_mem_triple {g k e1 c1 c2 a1 x : String}
    (h : Act.hostAdd g k ∈ [Act.ens e1, Act.child c1 c2, Act.hostAdd a1 x]) :
    k = x := by
  simp at h
  exact h.2

theorem actsOf_hostAdd {inventoryKey environment : String} {h : Host}
    {g k : String} (hmem : Act.hostAdd g k ∈ actsOf inventoryKey environment h) :
    h.environment = environment ∧ k = h.get_inventory_key_value inventoryKey := by
  unfold actsOf at hmem
  by_cases he : h.environment ≠ environment
  · rw [if_pos he] at hmem
    exact absurd hmem (by simp)
  · rw [if_neg he] at hmem
    push_neg at he
    refine ⟨he, ?_⟩
    rw [List.mem_append, List.mem_append, List.mem_append] at hmem
    rcases hmem with ((hA | hB) | hC) | hD
    · exact hostAdd_mem_triple hA
    · split at hB
      · split at hB
        · rw [List.mem_append] at hB
          rcases hB with hB1 | hB2
          · exact hostAdd_mem_triple hB1
          · split at hB2
            · rcases List.mem_flatMap.mp hB2 with ⟨pg, _, hin⟩
              exact hostAdd_mem_triple hin
            · exact absurd hB2 (by simp)
        · exact absurd hB (by simp)
      · exact absurd hB (by simp)
    · split at hC
      · split at hC
        · exact hostAdd_mem_triple hC
        · exact absurd hC (by simp)
      · exact absurd hC (by simp)
    · split at hD
      · split at hD
        · exact hostAdd_mem_triple hD
        · exact absurd hD (by simp)
      · exact absurd hD (by simp)

theorem foldl_hosts_source (inventoryKey environment : String) (l : List Host)
    (inv : Inv) (g k : String) (e : InvEntry)
    (he : (l.foldl (addHostRecord inventoryKey environment) inv) g = some e)
    (hk : k ∈ e.hosts) :
    (∃ e', inv g = some e' ∧ k ∈ e'.hosts) ∨
      ∃ h ∈ l, h.environment = environment ∧
        h.get_inventory_key_value inventoryKey = k := by
  induction l generalizing inv with
  | nil => exact Or.inl ⟨e, he, hk⟩
  | cons h t ih =>
    rw [List.foldl_cons] at he
    rcases ih _ he with ⟨e', he', hk'⟩ | ⟨h', hh', hprop⟩
    · rw [addHostRecord_eq_join] at he'
      unfold joinC at he'
      cases hi : inv g with
      | none =>
        cases hd : deltaActs (actsOf inventoryKey environment h) g with
        | none =>
          rw [hi, hd] at he'
          exact absurd he' (by simp)
        | some p =>
          rw [hi, hd] at he'
          rw [← Option.some_inj.mp he'] at hk'
          simp only at hk'
          rcases deltaActs_hosts hd hk' with ⟨g', hga⟩
          rcases actsOf_hostAdd hga with ⟨henv, hkey⟩
          exact Or.inr ⟨h, List.mem_cons_self _ _, henv, hkey.symm⟩
      | some e0 =>
        cases hd : deltaActs (actsOf inventoryKey environment h) g with
        | none =>
          rw [hi, hd] at he'
          rw [← Option.some_inj.mp he'] at hk'
          exact Or.inl ⟨e0, rfl, hk'⟩
        | some p =>
          rw [hi, hd] at he'
          rw [← Option.some_inj.mp he'] at hk'
          simp only at hk'
          rcases Finset.mem_union.mp hk' with hk0 | hkp
          · exact Or.inl ⟨e0, rfl, hk0⟩
          · rcases deltaActs_hosts hd hkp with ⟨g', hga⟩
            rcases actsOf_hostAdd hga with ⟨henv, hkey⟩
            exact Or.inr ⟨h, List.mem_cons_self _ _, henv, hkey.symm⟩
    · exact Or.inr ⟨h', List.mem_cons_of_mem _ hh', hprop⟩

/-- Every host name in a built tree comes from a record of the input
list matching the environment. -/
theorem build_hosts_source (inventoryKey environment : String) (l : List Host)
    (g k : String) (e : InvEntry)
    (he : build_environment_inventory inventoryKey l environment g = some e)
    (hk : k ∈ e.hosts) :
    ∃ h ∈ l, h.environment = environment ∧
      h.get_inventory_key_value inventoryKey = k := by
  unfold build_environment_inventory at he
  rcases foldl_hosts_source inventoryKey environment l initInv g k e he hk with
    ⟨e', he', hk'⟩ | hsrc
  · unfold initInv at he'
    by_cases hg : g = "all"
    · rw [if_pos hg] at he'
      rw [← Option.some_inj.mp he'] at hk'
      simp at hk'
    · rw [if_neg hg] at he'
      exact absurd he' (by simp)
  · exact hsrc

/-- C6: a record whose status is not `active` contributes no host-vars
file and no tree membership: if every record carrying canonical key `k`
is inactive, then no host-vars file `k.yml` is created and `k` is in no
group's hosts set of the generated tree. -/
theorem claim_C6 (inventoryKey environment : String) (hosts : List Host)
    (k : String)
    (hk : ∀ h ∈ hosts, h.get_inventory_key_value inventoryKey = k →
      h.is_active = false) :
    (k ++ ".yml") ∉ (generateInventoryFile inventoryKey environment hosts).1 ∧
    (∀ g e, (generateInventoryFile inventoryKey environment hosts).2 g = some e →
      k ∉ e.hosts) := by
  constructor
  · intro hmem
    unfold generateInventoryFile at hmem
    simp only [List.mem_map] at hmem
    rcases hmem with ⟨h, hh, hfile⟩
    rw [List.mem_filter] at hh
    have hkey : h.get_inventory_key_value inventoryKey = k := by
      unfold Host.get_host_vars_filename at hfile
      have hdata := congrArg String.data hfile
      rw [data_append, data_append] at hdata
      have := List.append_cancel_right hdata
      cases hkv : h.get_inventory_key_value inventoryKey
      cases k
      rw [hkv] at this
      exact congrArg String.mk this
    rw [hk h hh.1 hkey] at hh
    exact absurd hh.2 (by simp)
  · intro g e he hkmem
    unfold generateInventoryFile at he
    rcases build_hosts_source inventoryKey environment _ g k e he hkmem with
      ⟨h, hh, henv, hkey⟩
    rw [List.mem_filter] at hh
    rw [hk h hh.1 hkey] at hh
    exact absurd hh.2 (by simp)

/-- C6 witness: a decommissioned record with full grouping attributes
produces neither a host-vars file nor any tree membership. -/
theorem claim_C6_witness :
    ("old01" ++ ".yml") ∉
      (generateInventoryFile "hostname" "production"
        [⟨"old01", "", "production", "decommissioned", "Web Server", ["web"],
          "use1", "1"⟩]).1 ∧
    (∀ g e, (generateInventoryFile "hostname" "production"
        [⟨"old01", "", "production", "decommissioned", "Web Server", ["web"],
          "use1", "1"⟩]).2 g = some e → "old01" ∉ e.hosts) :=
  claim_C6 "hostname" "production"
    [⟨"old01", "", "production", "decommissioned", "Web Server", ["web"],
      "use1", "1"⟩] "old01" (by decide)

/-- C7: a missing source file or zero valid records aborts the whole
run with an error result: status `error`, a human-readable error
string, an empty generated-files list, and no per-environment
generation attempted. -/
theorem claim_C7 (envInfo : String → Option (String × String))
    (envs : List String) (dryRun : Bool) (envFails : String → Bool)
    (msg : String) :
    generate_inventories envInfo (.notFound msg) envs dryRun envFails =
      ⟨"error", some ("CSV source file not found: " ++ msg), [], dryRun⟩ ∧
    generate_inventories envInfo (.ok []) envs dryRun envFails =
      ⟨"error",
        some "Failed to generate inventories: No valid hosts found in CSV file",
        [], dryRun⟩ := by
  constructor
  · rfl
  · simp [generate_inventories]

theorem genStep_false_eq (envInfo : String → Option (String × String))
    (hosts : List Host) (envFails : String → Bool) (acc : List String)
    (env : String) :
    genStep envInfo hosts false envFails acc env =
      if envHostsFor hosts env (envNameAndFile envInfo env).1 = [] then acc
      else if envFails env then acc
      else acc ++ [(envNameAndFile envInfo env).2] := by
  unfold genStep
  by_cases h1 : envHostsFor hosts env (envNameAndFile envInfo env).1 = []
  · rw [if_pos h1, if_pos h1]
  · rw [if_neg h1, if_neg h1, if_neg (by simp)]

theorem genStep_foldl (envInfo : String → Option (String × String))
    (hosts : List Host) (envFails : String → Bool) (envs : List String)
    (acc : List String) :
    envs.foldl (genStep envInfo hosts false envFails) acc =
      acc ++ (envs.filter (fun env =>
          decide (envHostsFor hosts env (envNameAndFile envInfo env).1 ≠ []) &&
            !envFails env)).map
        (fun env => (envNameAndFile envInfo env).2) := by
  induction envs generalizing acc with
  | nil => simp
  | cons env rest ih =>
    rw [List.foldl_cons, List.filter_cons, genStep_false_eq]
    by_cases h1 : envHostsFor hosts env (envNameAndFile envInfo env).1 = []
    · rw [if_pos h1, ih]
      simp [h1]
    · rw [if_neg h1]
      by_cases h2 : envFails env
      · rw [if_pos h2, ih]
        simp [h1, h2]
      · rw [if_neg h2, ih]
        simp [h1, h2, List.append_assoc]

/-- C8: with a non-empty record list, the run reports status `success`
with no error, and the generated-files list is exactly the files of the
environments that have matching records and whose generation does not
raise — a failing environment's file is absent and the loop continues
with the remaining environments. -/
theorem claim_C8 (envInfo : String → Option (String × String))
    (hosts : List Host) (envs : List String) (envFails : String → Bool)
    (hne : hosts ≠ []) :
    (generate_inventories envInfo (.ok hosts) envs false envFails).status =
      "success" ∧
    (generate_inventories envInfo (.ok hosts) envs false envFails).error = none ∧
    (generate_inventories envInfo (.ok hosts) envs false envFails).generated_files =
      (envs.filter (fun env =>
          decide (envHostsFor hosts env (envNameAndFile envInfo env).1 ≠ []) &&
            !envFails env)).map
        (fun env => (envNameAndFile envInfo env).2) := by
  have hred : generate_inventories envInfo (.ok hosts) envs false envFails =
      if hosts = [] then
        ⟨"error",
          some "Failed to generate inventories: No valid hosts found in CSV file",
          [], false⟩
      else
        ⟨"success", none, envs.foldl (genStep envInfo hosts false envFails) [],
          false⟩ := rfl
  rw [hred, if_neg hne]
  exact ⟨rfl, rfl, by rw [genStep_foldl]; simp⟩

/-- C8 witness: two environments, the first one failing; the run still
succeeds and returns exactly the second environment's file. -/
theorem claim_C8_witness :
    (generate_inventories (fun _ => none)
        (.ok [⟨"web01", "", "production", "active", "", [], "", ""⟩,
              ⟨"dev01", "", "development", "active", "", [], "", ""⟩])
        ["production", "development"] false (fun env => env == "production")).status =
      "success" ∧
    (generate_inventories (fun _ => none)
        (.ok [⟨"web01", "", "production", "active", "", [], "", ""⟩,
              ⟨"dev01", "", "development", "active", "", [], "", ""⟩])
        ["production", "development"] false
        (fun env => env == "production")).error = none ∧
    (generate_inventories (fun _ => none)
        (.ok [⟨"web01", "", "production", "active", "", [], "", ""⟩,
              ⟨"dev01", "", "development", "active", "", [], "", ""⟩])
        ["production", "development"] false
        (fun env => env == "production")).generated_files =
      (["production", "development"].filter (fun env =>
          decide (envHostsFor
              [⟨"web01", "", "production", "active", "", [], "", ""⟩,
               ⟨"dev01", "", "development", "active", "", [], "", ""⟩]
              env (envNameAndFile (fun _ => none) env).1 ≠ []) &&
            !(env == "production"))).map
        (fun env => (envNameAndFile (fun _ => none) env).2) :=
  claim_C8 (fun _ => none)
    [⟨"web01", "", "production", "active", "", [], "", ""⟩,
     ⟨"dev01", "", "development", "active", "", [], "", ""⟩]
    ["production", "development"] (fun env => env == "production") (by decide)

theorem toLower_ne_dash {c : Char} (hc : c.isAlphanum = true) :
    ¬ Char.toLower c = '-' := by
  intro hEq
  simp only [Char.toLower] at hEq
  by_cases hu : c.toNat ≥ 65 ∧ c.toNat ≤ 90
  · rw [if_pos hu] at hEq
    have hval : (c.toNat + 32).isValidChar := Or.inl (by omega)
    have htn : (Char.ofNat (c.toNat + 32)).toNat = c.toNat + 32 := by
      unfold Char.ofNat
      rw [dif_pos hval]
      rfl
    rw [hEq] at htn
    have h45 : ('-' : Char).toNat = 45 := by decide
    omega
  · rw [if_neg hu] at hEq
    subst hEq
    exact absurd hc (by decide)

/-- C9 counterexample: the site group name only lower-cases and
replaces hyphens, so a site code containing another non-alphanumeric
character (here a dot) is not normalized as claimed: the tree built
from such a record contains `site_us.east_1` and not the claimed
`site_us_east_1`. -/
theorem claim_C9_counterexample :
    siteGroupName (pyStrip "US.East-1") ≠
      "site_" ++ specNormalize (pyStrip "US.East-1") ∧
    build_environment_inventory "hostname"
      [⟨"web01", "", "production", "active", "", [], "US.East-1", ""⟩]
      "production" "site_us.east_1" ≠ none ∧
    build_environment_inventory "hostname"
      [⟨"web01", "", "production", "active", "", [], "US.East-1", ""⟩]
      "production" "site_us_east_1" = none := by
  refine ⟨by decide, by decide, by decide⟩

/-- C9 amended: the app, product and batch group names carry their
category prefixes over the fully normalized raw value, and the site
group name is `site_` plus the lower-cased value with hyphens replaced
by `_`; the claimed full normalization holds for the site group exactly
when every character of the (stripped) value is alphanumeric or a
hyphen. -/
theorem claim_C9 :
    (∀ s : String, (∀ c ∈ s.data, c.isAlphanum = true ∨ c = '-') →
        siteGroupName s = "site_" ++ specNormalize s) ∧
    (∀ h : Host, h.application_service ≠ "" →
        h.get_app_group_name = "app_" ++ specNormalize h.application_service) ∧
    (∀ h : Host, h.batch_number ≠ "" →
        h.get_batch_group_name = "batch_" ++ specNormalize h.batch_number) ∧
    (∀ h : Host, h.get_product_group_names =
        h.get_product_ids.map (fun p => "product_" ++ specNormalize p)) := by
  refine ⟨?_, ?_, ?_, ?_⟩
  · intro s hs
    unfold siteGroupName
    apply congrArg (fun t => "site_" ++ t)
    unfold pyReplaceDash pyLower specNormalize
    apply congrArg String.mk
    show ((s.data.map Char.toLower).map fun c => if c = '-' then '_' else c) = _
    rw [List.map_map]
    apply List.map_congr_left
    intro c hc
    rcases hs c hc with ha | hd
    · simp [Function.comp, toLower_ne_dash ha, ha]
    · subst hd
      decide
  · intro h hne
    unfold Host.get_app_group_name
    rw [if_neg hne]
  · intro h hne
    unfold Host.get_batch_group_name
    rw [if_neg hne]
  · intro h
    unfold Host.get_product_group_names
    rfl

/-- C9 witness: concrete values discharging each hypothesis. -/
theorem claim_C9_witness :
    siteGroupName "Us-East1" = "site_" ++ specNormalize "Us-East1" ∧
    Host.get_app_group_name
        ⟨"web01", "", "production", "active", "Web Server", [], "", ""⟩ =
      "app_" ++ specNormalize "Web Server" ∧
    Host.get_batch_group_name
        ⟨"web01", "", "production", "active", "", [], "", "1"⟩ =
      "batch_" ++ specNormalize "1" :=
  ⟨claim_C9.1 "Us-East1" (by decide),
   claim_C9.2.1 ⟨"web01", "", "production", "active", "Web Server", [], "", ""⟩
     (by decide),
   claim_C9.2.2.1 ⟨"web01", "", "production", "active", "", [], "", "1"⟩
     (by decide)⟩

theorem hostname_mem_validIdentifiers {hosts : List Host} {h : Host}
    (hh : h ∈ hosts) (hne : h.hostname ≠ "") :
    h.hostname ∈ validIdentifiers hosts := by
  induction hosts with
  | nil => exact absurd hh (by simp)
  | cons h' t ih =>
    unfold validIdentifiers
    rw [List.foldr_cons]
    rcases List.mem_cons.mp hh with rfl | ht
    · apply Finset.mem_union_left
      apply Finset.mem_union_left
      rw [if_pos hne]
      exact Finset.mem_singleton_self _
    · exact Finset.mem_union_right _ (ih ht)

theorem cname_mem_validIdentifiers {hosts : List Host} {h : Host}
    (hh : h ∈ hosts) (hne : h.cname ≠ "") :
    h.cname ∈ validIdentifiers hosts := by
  induction hosts with
  | nil => exact absurd hh (by simp)
  | cons h' t ih =>
    unfold validIdentifiers
    rw [List.foldr_cons]
    rcases List.mem_cons.mp hh with rfl | ht
    · apply Finset.mem_union_left
      apply Finset.mem_union_right
      rw [if_pos hne]
      exact Finset.mem_singleton_self _
    · exact Finset.mem_union_right _ (ih ht)

/-- C10: reconciliation never deletes a file whose stem equals the
hostname or cname of any loaded record, regardless of that record's
status — the valid-identifier set is built from all loaded hosts with
no status filter, so decommissioned records keep their files. -/
theorem claim_C10 (cleanupEnabled : Bool) (hosts : List Host)
    (dir : List DirFile) (dryRun : Bool) (unlinkFails : DirFile → Bool)
    (h : Host) (s : String) (hh : h ∈ hosts)
    (hs : (s = h.hostname ∧ s ≠ "") ∨ (s = h.cname ∧ s ≠ "")) :
    ∀ f ∈ dir, f.stem = s →
      f ∈ (cleanup_orphaned_host_vars cleanupEnabled hosts dir dryRun
        unlinkFails).2 := by
  intro f hf hstem
  have hvalid : s ∈ validIdentifiers hosts := by
    rcases hs with ⟨heq, hne⟩ | ⟨heq, hne⟩
    · subst heq
      exact hostname_mem_validIdentifiers hh hne
    · subst heq
      exact cname_mem_validIdentifiers hh hne
  have horph : f ∉ orphanedOf hosts dir := by
    unfold orphanedOf
    rw [List.mem_filter]
    rintro ⟨-, hcond⟩
    simp only [Bool.and_eq_true, decide_eq_true_eq] at hcond
    exact hcond.2 (hstem ▸ hvalid)
  unfold cleanup_orphaned_host_vars
  by_cases he : cleanupEnabled
  · rw [if_neg (by simp [he])]
    by_cases ho : orphanedOf hosts dir = []
    · simp [ho, hf]
    · rw [if_neg ho]
      by_cases hd : dryRun
      · simp [hd, hf]
      · rw [if_neg hd]
        simp [List.mem_filter, horph, hf]
  · rw [if_pos (by simp [he])]
    exact hf

/-- C10 witness: a host-vars file for a decommissioned record is
retained by a real (non-dry) cleanup run. -/
theorem claim_C10_witness :
    (⟨"old01", "yml"⟩ : DirFile) ∈ (cleanup_orphaned_host_vars true
        [⟨"old01", "", "production", "decommissioned", "", [], "", ""⟩]
        [⟨"old01", "yml"⟩] false (fun _ => false)).2 :=
  claim_C10 true [⟨"old01", "", "production", "decommissioned", "", [], "", ""⟩]
    [⟨"old01", "yml"⟩] false (fun _ => false)
    ⟨"old01", "", "production", "decommissioned", "", [], "", ""⟩ "old01"
    (by decide) (Or.inl ⟨rfl, by decide⟩) ⟨"old01", "yml"⟩ (by decide) rfl

end AnsibleInventory
